import Mathlib

/-!
Verification of `sbpl_lattice_planner.cpp` (RobotnikAutomation/navigation_experimental).

This file gives a shallow embedding of the planner adapter's core logic:

* the cost discretizer `costMapCostToSBPLCost` (source lines 238-253);
* the incremental environment-synchronization loop of `makePlanInternal`
  (source lines 470-506) and the post-loop engine notifications
  (source lines 508-519);
* the replan decision gate, goal clamping and plan-cache update of
  `makePlan` (source lines 310-384);
* the path post-processing of `makePlanInternal`: rough-plan construction
  with the degenerate-solution substitution (source lines 567-605), the
  two smoothing passes (source lines 611-669) and the orientation
  overwrite pass (source lines 671-676).

Machine bytes are modelled as `Nat` with explicit `% 256` where the C++
performs a narrowing cast; `double` arithmetic is modelled over `ℝ`.
The opaque SBPL search engine is modelled as an oracle where the claims
only concern the adapter's control flow around it.
-/

namespace SbplLattice

open Classical

/-! ## Cost Mapper (source lines 238-253, configuration lines 122-126)

`costmap_2d` sentinel constants (fixed by the costmap_2d package). -/

def LETHAL_OBSTACLE : Nat := 254

def INSCRIBED_INFLATED_OBSTACLE : Nat := 253

def NO_INFORMATION : Nat := 255

/-- Member `inscribed_inflated_obstacle_ = lethal_obstacle_ - 1` on `unsigned char`
(source line 125); subtraction wraps modulo 256. -/
def inscribed_inflated_obstacle_ (lethal_obstacle_ : Nat) : Nat :=
  (lethal_obstacle_ + 255) % 256

/-- Member `sbpl_cost_multiplier_ = (unsigned char)(costmap_2d::INSCRIBED_INFLATED_OBSTACLE /
inscribed_inflated_obstacle_ + 1)` (source line 126). -/
def sbpl_cost_multiplier_ (lethal_obstacle_ : Nat) : Nat :=
  (INSCRIBED_INFLATED_OBSTACLE / inscribed_inflated_obstacle_ lethal_obstacle_ + 1) % 256

/-- Function `SBPLLatticePlanner::costMapCostToSBPLCost` (source lines 238-253),
parameterized by the configured `lethal_obstacle_` byte. -/
def costMapCostToSBPLCost (lethal_obstacle_ : Nat) (newcost : Nat) : Nat :=
  if newcost = LETHAL_OBSTACLE then lethal_obstacle_
  else if newcost = INSCRIBED_INFLATED_OBSTACLE then
    inscribed_inflated_obstacle_ lethal_obstacle_
  else if newcost = 0 ∨ newcost = NO_INFORMATION then 0
  else
    let sbpl_cost := newcost / sbpl_cost_multiplier_ lethal_obstacle_
    if sbpl_cost = 0 then 1 else sbpl_cost

/-! ## Environment Synchronizer: incremental diff loop (source lines 465-506)

The engine's mirrored grid (`env_->GetMapCost` / `env_->UpdateCost`) is
modelled as a function from cell coordinates to costs.  One accumulator
holds (mirror, changedcellsV, allCount); the diagnostic counters
`offOnCount` / `onOffCount` of the loop are computed but never read by
the source after the loop, so they are omitted. -/

/-- Loop body for one cell `(ix, iy)` (source lines 474-504). -/
def syncStep (lethal_obstacle_ : Nat) (live : Nat × Nat → Nat)
    (acc : (Nat × Nat → Nat) × List (Nat × Nat) × Nat) (c : Nat × Nat) :
    (Nat × Nat → Nat) × List (Nat × Nat) × Nat :=
  let oldCost := acc.1 c
  let newCost := costMapCostToSBPLCost lethal_obstacle_ (live c)
  if oldCost = newCost then acc
  else (fun d => if d = c then newCost else acc.1 d, acc.2.1 ++ [c], acc.2.2 + 1)

/-- Row-major cell enumeration of the double loop at source lines 470-472. -/
def gridCells (w h : Nat) : List (Nat × Nat) :=
  (List.range w).product (List.range h)

/-- The full synchronization loop over a list of cells, starting from an
empty changed-cell vector and `allCount = 0` (source lines 465-506). -/
def syncCells (lethal_obstacle_ : Nat) (live mirror : Nat × Nat → Nat)
    (cells : List (Nat × Nat)) : (Nat × Nat → Nat) × List (Nat × Nat) × Nat :=
  cells.foldl (syncStep lethal_obstacle_ live) (mirror, [], 0)

/-- Synchronization over the whole grid, as the source performs it. -/
def syncResult (lethal_obstacle_ : Nat) (live mirror : Nat × Nat → Nat)
    (w h : Nat) : (Nat × Nat → Nat) × List (Nat × Nat) × Nat :=
  syncCells lethal_obstacle_ live mirror (gridCells w h)

/-! ## Post-loop engine notifications (source lines 508-519) -/

/-- Calls made into the opaque search engine after the diff loop. -/
inductive EngineCall where
  | costsChanged : List (Nat × Nat) → EngineCall
  | forceScratch : EngineCall
  deriving DecidableEq

/-- Source lines 508-519: `planner_->costs_changed(...)` is invoked whenever
`changedcellsV` is nonempty, and `planner_->force_planning_from_scratch()`
is additionally invoked when `allCount > force_scratch_limit_`. -/
def syncEngineCalls (force_scratch_limit_ : Int)
    (r : (Nat × Nat → Nat) × List (Nat × Nat) × Nat) : List EngineCall :=
  (if r.2.1 = [] then [] else [EngineCall.costsChanged r.2.1]) ++
    (if (r.2.2 : Int) > force_scratch_limit_ then [EngineCall.forceScratch] else [])

/-! ## Poses and real-valued geometry (geometry_msgs / tf, modelled over ℝ) -/

/-- Message `geometry_msgs::Quaternion`; all components default-initialize to 0. -/
structure Quat where
  qx : ℝ
  qy : ℝ
  qz : ℝ
  qw : ℝ

/-- Message `geometry_msgs::Pose`: position plus orientation quaternion. -/
structure Pose where
  px : ℝ
  py : ℝ
  pz : ℝ
  q : Quat

/-- Message `geometry_msgs::PoseStamped`, with the header reduced to its timestamp
(in seconds); the frame id plays no role in the verified claims. -/
structure PoseStamped where
  stamp : ℝ
  pose : Pose

/-- Function `tf::createQuaternionMsgFromYaw` / `tf2` `setRPY(0, 0, yaw)`:
the planar quaternion `(0, 0, sin (yaw/2), cos (yaw/2))`. -/
noncomputable def quatFromYaw (yaw : ℝ) : Quat :=
  ⟨0, 0, Real.sin (yaw / 2), Real.cos (yaw / 2)⟩

/-- Function `atan2(y, x)` of `<cmath>`, by cases on the quadrant. -/
noncomputable def atan2 (y x : ℝ) : ℝ :=
  if 0 < x then Real.arctan (y / x)
  else if x < 0 then
    (if 0 ≤ y then Real.arctan (y / x) + Real.pi else Real.arctan (y / x) - Real.pi)
  else
    (if 0 < y then Real.pi / 2 else if y < 0 then -(Real.pi / 2) else 0)

/-- Function `distanceBetweenPoses` (source lines 303-308). -/
noncomputable def distanceBetweenPoses (one two : PoseStamped) : ℝ :=
  let dx := one.pose.px - two.pose.px
  let dy := one.pose.py - two.pose.py
  Real.sqrt (dx * dx + dy * dy)

/-! ## Replan Decision Gate, Goal Clamper and plan cache (source lines 310-384) -/

/-- The planner's cached state: `previous_plan_`, `previous_goal_`,
`robot_pose_when_plan_was_created_`. -/
structure PlanCache where
  previous_plan_ : List PoseStamped
  previous_goal_ : PoseStamped
  robot_pose_when_plan_was_created_ : PoseStamped

/-- The disjunction of the four replan triggers accumulated into
`must_make_plan` by the successive `if`s at source lines 323-352. -/
def mustMakePlan (cache : PlanCache) (robot_pose goal : PoseStamped) : Prop :=
  cache.previous_plan_ = [] ∨
  goal ≠ cache.previous_goal_ ∨
  distanceBetweenPoses robot_pose cache.robot_pose_when_plan_was_created_ > 10 ∨
  robot_pose.stamp - cache.robot_pose_when_plan_was_created_.stamp > 10

/-- Goal clamping (source lines 364-378): `actual_goal` starts as `goal`;
when the euclidean distance from the robot exceeds
`maximum_planning_distance = 20`, position is pulled onto the 20-radius
circle around the robot and orientation is rebuilt from `atan2(dy, dx)`. -/
noncomputable def clampedGoal (robot_pose goal : PoseStamped) : PoseStamped :=
  let dx := goal.pose.px - robot_pose.pose.px
  let dy := goal.pose.py - robot_pose.pose.py
  let dist := Real.sqrt (dx * dx + dy * dy)
  if dist > 20 then
    { goal with
      pose := { goal.pose with
        px := robot_pose.pose.px + 20 * dx / dist
        py := robot_pose.pose.py + 20 * dy / dist
        q := quatFromYaw (atan2 dy dx) } }
  else goal

/-- Everything `SBPLLatticePlanner::makePlan` returns or mutates:
the boolean result, the caller's `plan` vector after the call, the plan
cache after the call, and the list of `(start, actual_goal)` arguments of
the `makePlanInternal` invocations performed. -/
structure MakePlanResult where
  success : Bool
  plan : List PoseStamped
  cache : PlanCache
  internalCalls : List (PoseStamped × PoseStamped)

/-- Function `SBPLLatticePlanner::makePlan` (source lines 310-384).  `got_pose` is
the outcome of `costmap_ros_->getRobotPose`; `internal` is the behavior of
`makePlanInternal` (which never touches the plan cache in the source), as
a function from `(start, actual_goal)` to `(return value, plan vector)`.
On pose failure the source calls the non-mutating `plan.empty()` and
returns false.  When the gate fires, `previous_goal_` is set to the true
goal (line 362), `makePlanInternal` runs on the clamped goal, and then
`previous_plan_` and `robot_pose_when_plan_was_created_` are overwritten
unconditionally (lines 381-382), regardless of success. -/
noncomputable def makePlan
    (internal : PoseStamped → PoseStamped → Bool × List PoseStamped)
    (cache : PlanCache) (got_pose : Option PoseStamped)
    (start goal : PoseStamped) (plan : List PoseStamped) : MakePlanResult :=
  match got_pose with
  | none => ⟨false, plan, cache, []⟩
  | some robot_pose =>
    if mustMakePlan cache robot_pose goal then
      let actual_goal := clampedGoal robot_pose goal
      let r := internal start actual_goal
      ⟨r.1, r.2, ⟨r.2, goal, robot_pose⟩, [(start, actual_goal)]⟩
    else
      ⟨true, cache.previous_plan_, cache, []⟩

/-! ## Path Post-Processor (source lines 556-676)

The smoothing passes act on the seven numeric components of a pose
(position x/y/z and quaternion x/y/z/w); the pose header is dropped as it
plays no role in the claims. -/

/-- The default-constructed accumulator `smoothed_pose` of the smoothing
loops: every component zero-initialized. -/
def poseZero : Pose := ⟨0, 0, 0, ⟨0, 0, 0, 0⟩⟩

/-- Componentwise accumulation `smoothed_pose += rough_plan[j]`
(source lines 623-629 and 652-658). -/
def poseAdd (a b : Pose) : Pose :=
  ⟨a.px + b.px, a.py + b.py, a.pz + b.pz,
    ⟨a.q.qx + b.q.qx, a.q.qy + b.q.qy, a.q.qz + b.q.qz, a.q.qw + b.q.qw⟩⟩

/-- Componentwise division by `total` (source lines 632-638 and 661-667). -/
noncomputable def poseDiv (a : Pose) (total : Nat) : Pose :=
  ⟨a.px / total, a.py / total, a.pz / total,
    ⟨a.q.qx / total, a.q.qy / total, a.q.qz / total, a.q.qw / total⟩⟩

/-- Sum of `rough.getD j poseZero` over a list of indices, then divide by
their count — the body shared by both smoothing loops. -/
noncomputable def windowAverage (rough : List Pose) (idx : List Nat) : Pose :=
  poseDiv (idx.foldl (fun acc j => poseAdd acc (rough.getD j poseZero)) poseZero)
    idx.length

/-- Main smoothing pass at index `i` (source lines 612-639): the window is
`[max 0 (i-W), min (i+W) (N-1)]` inclusive (`i - W` is clamped at 0 by the
ternary on line 618; `Nat` subtraction realizes the same clamp). -/
noncomputable def smoothAt (rough : List Pose) (W i : Nat) : Pose :=
  let N := rough.length
  let lo := i - W
  let hi := min (i + W) (N - 1)
  windowAverage rough (List.range' lo (hi + 1 - lo))

/-- The main smoothing pass (source lines 612-640), producing one output
pose per raw pose. -/
noncomputable def mainPass (rough : List Pose) (W : Nat) : List Pose :=
  (List.range rough.length).map (smoothAt rough W)

/-- Tail-pass smoothing at index `i` (source lines 646-667): the
forward-shrinking window `[i, N-1]`. -/
noncomputable def smoothTailAt (rough : List Pose) (i : Nat) : Pose :=
  windowAverage rough (List.range' i (rough.length - i))

/-- The tail pass (source lines 642-669).  The loop start
`rough_plan.size() - smooth_window_` is computed in `size_t`; the `? 0 :`
clamp can never fire, and when `N < W` the wrapped value converted to
`int` is negative, so the loop guard `i < rough_plan.size()` (signed
versus unsigned comparison) fails immediately and nothing is appended.
When `W ≤ N` the loop appends one pose for each `i ∈ [N-W, N-1]`
(`plan.push_back`, line 668 — an append, not an overwrite). -/
noncomputable def tailPass (rough : List Pose) (W : Nat) : List Pose :=
  let N := rough.length
  if W ≤ N then (List.range' (N - W) W).map (smoothTailAt rough) else []

/-- The complete smoothed `plan` vector after both smoothing loops: the
main pass (lines 612-640) followed by the appended tail pass
(lines 642-669). -/
noncomputable def smoothedPlan (rough : List Pose) (W : Nat) : List Pose :=
  mainPass rough W ++ tailPass rough W

/-- The orientation-overwrite pass (source lines 671-676): every pose but
the last gets its orientation replaced by the yaw towards the next pose
(only positions are read, so the sequential in-place mutation equals a
simultaneous map). -/
noncomputable def overwriteOrientations (plan : List Pose) : List Pose :=
  (List.range plan.length).map (fun i =>
    if i < plan.length - 1 then
      let cur := plan.getD i poseZero
      let nxt := plan.getD (i + 1) poseZero
      { cur with q := quatFromYaw (atan2 (nxt.py - cur.py) (nxt.px - cur.px)) }
    else plan.getD i poseZero)

/-! ## Rough-plan construction and the degenerate-solution substitution
(source lines 554-605) -/

/-- Type `EnvNAVXYTHETALAT3Dpt_t`: one lattice pose of the raw SBPL path. -/
structure LatticePt where
  x : ℝ
  y : ℝ
  theta : ℝ

/-- Source lines 567-605: when the converted lattice path is empty, a
single synthetic point at the start (in engine-local coordinates, heading
`theta_start = 2 * atan2(qz, qw)`, line 430) is substituted; every
lattice point is then translated back by the grid origin, given the
start's z, and its heading turned into a quaternion. -/
noncomputable def makeRoughPlan (ox oy : ℝ) (start : Pose)
    (sbpl_path : List LatticePt) : List Pose :=
  let theta_start := 2 * atan2 start.q.qz start.q.qw
  let path :=
    if sbpl_path.length = 0 then [⟨start.px - ox, start.py - oy, theta_start⟩]
    else sbpl_path
  path.map (fun p =>
    { px := p.x + ox, py := p.y + oy, pz := start.pz, q := quatFromYaw p.theta })

/-! ## Concrete instances used by witnesses and counterexamples -/

/-- A live grid holding the lethal sentinel everywhere. -/
def liveLethal : Nat × Nat → Nat := fun _ => LETHAL_OBSTACLE

/-- A mirror holding cost 0 everywhere. -/
def mirrorZero : Nat × Nat → Nat := fun _ => 0

/-- The all-zero pose with identity-free quaternion `(0,0,0,1)`. -/
def poseA : Pose := ⟨0, 0, 0, ⟨0, 0, 0, 1⟩⟩

/-- A pose displaced one unit along x from `poseA`. -/
def poseB : Pose := ⟨1, 0, 0, ⟨0, 0, 0, 1⟩⟩

/-- Pose `poseA` stamped at time 0. -/
def psA : PoseStamped := ⟨0, poseA⟩

/-- Pose `poseB` stamped at time 0. -/
def psB : PoseStamped := ⟨0, poseB⟩

/-- A cache holding a one-pose plan for goal `psA`, created at `psA`. -/
def cacheA : PlanCache := ⟨[psA], psA, psA⟩

/-- The observable behavior of `makePlanInternal` on its no-solution
branch (source lines 540-545): the plan vector is cleared and `false` is
returned. -/
def failInternal : PoseStamped → PoseStamped → Bool × List PoseStamped :=
  fun _ _ => (false, [])

/-- Robot at the origin (for the goal-clamping instance). -/
def robot0 : PoseStamped := ⟨0, ⟨0, 0, 0, ⟨0, 0, 0, 1⟩⟩⟩

/-- Goal at `(100, 0)` (for the goal-clamping instance). -/
def goal100 : PoseStamped := ⟨0, ⟨100, 0, 0, ⟨0, 0, 0, 1⟩⟩⟩

/-! ## Theorems -/

/-- C5: `discretize(LETHAL) = lethal_obstacle`, `discretize(INSCRIBED_INFLATED) =
inscribed_inflated_obstacle`, `discretize(0) = discretize(NO_INFORMATION) = 0`,
and every other byte maps to `max(1, raw / cost_multiplier)`, hence never to 0. -/
theorem C5_cost_mapper_spec (lethal_obstacle_ raw : Nat) (hraw : raw < 256) :
    costMapCostToSBPLCost lethal_obstacle_ LETHAL_OBSTACLE = lethal_obstacle_ ∧
    costMapCostToSBPLCost lethal_obstacle_ INSCRIBED_INFLATED_OBSTACLE =
      inscribed_inflated_obstacle_ lethal_obstacle_ ∧
    costMapCostToSBPLCost lethal_obstacle_ 0 = 0 ∧
    costMapCostToSBPLCost lethal_obstacle_ NO_INFORMATION = 0 ∧
    (raw ≠ LETHAL_OBSTACLE → raw ≠ INSCRIBED_INFLATED_OBSTACLE →
      raw ≠ NO_INFORMATION → raw ≠ 0 →
      costMapCostToSBPLCost lethal_obstacle_ raw =
        max 1 (raw / sbpl_cost_multiplier_ lethal_obstacle_) ∧
      costMapCostToSBPLCost lethal_obstacle_ raw ≠ 0) := by
  refine ⟨by simp [costMapCostToSBPLCost], ?_, ?_, ?_, ?_⟩
  · simp [costMapCostToSBPLCost, INSCRIBED_INFLATED_OBSTACLE, LETHAL_OBSTACLE]
  · simp [costMapCostToSBPLCost, INSCRIBED_INFLATED_OBSTACLE, LETHAL_OBSTACLE]
  · simp [costMapCostToSBPLCost, INSCRIBED_INFLATED_OBSTACLE, LETHAL_OBSTACLE,
      NO_INFORMATION]
  · intro h1 h2 h3 h4
    simp only [costMapCostToSBPLCost, if_neg h1, if_neg h2,
      if_neg (not_or.mpr ⟨h4, h3⟩)]
    rcases Nat.eq_zero_or_pos (raw / sbpl_cost_multiplier_ lethal_obstacle_) with h0 | h0
    · simp [h0]
    · constructor
      · rw [if_neg (by omega)]
        omega
      · rw [if_neg (by omega)]
        omega

/-- C5 witness: the default configuration `lethal_obstacle_ = 20` at the lethal
sentinel and at the non-sentinel byte 100. -/
theorem C5_cost_mapper_spec_witness :
    costMapCostToSBPLCost 20 LETHAL_OBSTACLE = 20 ∧
    costMapCostToSBPLCost 20 100 = max 1 (100 / sbpl_cost_multiplier_ 20) :=
  ⟨(C5_cost_mapper_spec 20 100 (by decide)).1,
    ((C5_cost_mapper_spec 20 100 (by decide)).2.2.2.2 (by decide) (by decide)
      (by decide) (by decide)).1⟩

/-- C6: the discretizer is monotone non-decreasing on non-sentinel raw bytes. -/
theorem C6_cost_mapper_monotone (lethal_obstacle_ a b : Nat)
    (ha : a < 256) (hb : b < 256) (hab : a < b)
    (ha1 : a ≠ LETHAL_OBSTACLE) (ha2 : a ≠ INSCRIBED_INFLATED_OBSTACLE)
    (ha3 : a ≠ NO_INFORMATION)
    (hb1 : b ≠ LETHAL_OBSTACLE) (hb2 : b ≠ INSCRIBED_INFLATED_OBSTACLE)
    (hb3 : b ≠ NO_INFORMATION) :
    costMapCostToSBPLCost lethal_obstacle_ a ≤ costMapCostToSBPLCost lethal_obstacle_ b := by
  have hb0 : b ≠ 0 := by omega
  simp only [costMapCostToSBPLCost, if_neg ha1, if_neg ha2, if_neg hb1, if_neg hb2,
    if_neg (not_or.mpr ⟨hb0, hb3⟩)]
  by_cases ha0 : a = 0
  · rw [if_pos (Or.inl ha0)]
    exact Nat.zero_le _
  · rw [if_neg (not_or.mpr ⟨ha0, ha3⟩)]
    have hdiv : a / sbpl_cost_multiplier_ lethal_obstacle_ ≤
        b / sbpl_cost_multiplier_ lethal_obstacle_ :=
      Nat.div_le_div_right hab.le
    set qa := a / sbpl_cost_multiplier_ lethal_obstacle_ with hqa
    set qb := b / sbpl_cost_multiplier_ lethal_obstacle_ with hqb
    split_ifs <;> omega

/-- C6 witness: raw costs 1 < 2 under the default configuration. -/
theorem C6_cost_mapper_monotone_witness :
    costMapCostToSBPLCost 20 1 ≤ costMapCostToSBPLCost 20 2 :=
  C6_cost_mapper_monotone 20 1 2 (by decide) (by decide) (by decide) (by decide)
    (by decide) (by decide) (by decide) (by decide) (by decide)

/-- The synchronization fold, from any accumulator over any duplicate-free
cell list: the mirror ends up holding the discretized live cost on every
visited cell, the changed-cell vector extends by exactly the visited cells
whose discretized live cost differed from the mirror's previous value, and
`allCount` grows by their number. -/
lemma syncCells_foldl_spec (lethal_obstacle_ : Nat) (live : Nat × Nat → Nat) :
    ∀ (cells : List (Nat × Nat)) (mirror : Nat × Nat → Nat)
      (ch : List (Nat × Nat)) (n : Nat), cells.Nodup →
      cells.foldl (syncStep lethal_obstacle_ live) (mirror, ch, n) =
        ((fun d => if d ∈ cells then costMapCostToSBPLCost lethal_obstacle_ (live d)
            else mirror d),
          ch ++ cells.filter
            (fun c => decide (mirror c ≠ costMapCostToSBPLCost lethal_obstacle_ (live c))),
          n + (cells.filter
            (fun c => decide (mirror c ≠ costMapCostToSBPLCost lethal_obstacle_ (live c)))).length) := by
  intro cells
  induction cells with
  | nil =>
    intro mirror ch n _
    simp
  | cons c cs ih =>
    intro mirror ch n hnd
    obtain ⟨hc, hcs⟩ := List.nodup_cons.mp hnd
    rw [List.foldl_cons]
    by_cases heq : mirror c = costMapCostToSBPLCost lethal_obstacle_ (live c)
    · have hstep : syncStep lethal_obstacle_ live (mirror, ch, n) c = (mirror, ch, n) := by
        simp [syncStep, heq]
      rw [hstep, ih mirror ch n hcs]
      refine Prod.ext ?_ (Prod.ext ?_ ?_)
      · funext d
        by_cases hd : d = c
        · subst hd
          simp [hc, heq]
        · simp [List.mem_cons, hd]
      · simp [List.filter_cons, heq]
      · simp [List.filter_cons, heq]
    · have hstep : syncStep lethal_obstacle_ live (mirror, ch, n) c =
          ((fun d => if d = c then costMapCostToSBPLCost lethal_obstacle_ (live c)
            else mirror d), ch ++ [c], n + 1) := by
        simp [syncStep, heq]
      rw [hstep, ih _ _ _ hcs]
      have hne : ∀ d ∈ cs, d ≠ c := fun d hd h => hc (h ▸ hd)
      have hfilter : cs.filter
            (fun d => decide ((if d = c then costMapCostToSBPLCost lethal_obstacle_ (live c)
              else mirror d) ≠ costMapCostToSBPLCost lethal_obstacle_ (live d))) =
          cs.filter
            (fun d => decide (mirror d ≠ costMapCostToSBPLCost lethal_obstacle_ (live d))) := by
        apply List.filter_congr
        intro d hd
        simp [hne d hd]
      refine Prod.ext ?_ (Prod.ext ?_ ?_)
      · funext d
        by_cases hd : d = c
        · subst hd
          simp [hc]
        · by_cases hdcs : d ∈ cs <;> simp [hd, hdcs]
      · rw [hfilter]
        simp [List.filter_cons, heq]
      · rw [hfilter]
        simp [List.filter_cons, heq]
        omega

/-- The grid enumeration visits each cell exactly once. -/
lemma gridCells_nodup (w h : Nat) : (gridCells w h).Nodup :=
  (List.nodup_range w).product (List.nodup_range h)

/-- C8: after the incremental synchronization loop, every grid cell of the
mirror holds the discretization of the live grid's cost, the changed-cell
vector is exactly the list of grid cells whose discretized live cost
differed from the mirror's previous value, and `allCount` is its length. -/
theorem C8_sync_delta_correct (w h lethal_obstacle_ : Nat)
    (live mirror : Nat × Nat → Nat) :
    (∀ c ∈ gridCells w h, (syncResult lethal_obstacle_ live mirror w h).1 c =
      costMapCostToSBPLCost lethal_obstacle_ (live c)) ∧
    (syncResult lethal_obstacle_ live mirror w h).2.1 =
      (gridCells w h).filter
        (fun c => decide (mirror c ≠ costMapCostToSBPLCost lethal_obstacle_ (live c))) ∧
    (syncResult lethal_obstacle_ live mirror w h).2.2 =
      ((gridCells w h).filter
        (fun c => decide (mirror c ≠ costMapCostToSBPLCost lethal_obstacle_ (live c)))).length := by
  have hspec := syncCells_foldl_spec lethal_obstacle_ live (gridCells w h) mirror [] 0
    (gridCells_nodup w h)
  unfold syncResult syncCells
  rw [hspec]
  refine ⟨?_, by simp, by simp⟩
  intro c hc
  simp [hc]

/-- C8 witness: a 1×1 grid whose single live cell is lethal against an
all-zero mirror. -/
theorem C8_sync_delta_correct_witness :
    (syncResult 20 liveLethal mirrorZero 1 1).1 (0, 0) =
      costMapCostToSBPLCost 20 (liveLethal (0, 0)) ∧
    (syncResult 20 liveLethal mirrorZero 1 1).2.1 =
      (gridCells 1 1).filter
        (fun c => decide (mirrorZero c ≠ costMapCostToSBPLCost 20 (liveLethal c))) :=
  ⟨(C8_sync_delta_correct 1 1 20 liveLethal mirrorZero).1 (0, 0) (by decide),
    (C8_sync_delta_correct 1 1 20 liveLethal mirrorZero).2.1⟩

/-- Counter `allCount` always equals the length of `changedcellsV`: both are bumped
together in the loop body. -/
lemma syncCells_count_eq_length (lethal_obstacle_ : Nat) (live : Nat × Nat → Nat) :
    ∀ (cells : List (Nat × Nat)) (acc : (Nat × Nat → Nat) × List (Nat × Nat) × Nat),
      acc.2.2 = acc.2.1.length →
      (cells.foldl (syncStep lethal_obstacle_ live) acc).2.2 =
        (cells.foldl (syncStep lethal_obstacle_ live) acc).2.1.length := by
  intro cells
  induction cells with
  | nil => intro acc h; simpa using h
  | cons c cs ih =>
    intro acc h
    rw [List.foldl_cons]
    apply ih
    by_cases hq : acc.1 c = costMapCostToSBPLCost lethal_obstacle_ (live c) <;>
      simp [syncStep, hq, h]

/-- C4 counterexample to the claim as stated: on a 1×1 grid with one changed
cell and `force_scratch_limit_ = 0`, the change count exceeds the limit and
yet the changed-cell set is still handed to `costs_changed` (in addition to
the `force_planning_from_scratch` call), contradicting "otherwise (and only
otherwise)". -/
theorem C4_scratch_limit_counterexample :
    ((syncResult 20 liveLethal mirrorZero 1 1).2.2 : Int) > 0 ∧
    EngineCall.costsChanged (syncResult 20 liveLethal mirrorZero 1 1).2.1 ∈
      syncEngineCalls 0 (syncResult 20 liveLethal mirrorZero 1 1) ∧
    EngineCall.forceScratch ∈
      syncEngineCalls 0 (syncResult 20 liveLethal mirrorZero 1 1) := by
  decide

/-- C4 amended: `costs_changed` receives the changed-cell set exactly when it
is nonempty — regardless of the scratch limit — and `force_planning_from_scratch`
is invoked (after the notification, before `replan`) exactly when the changed
cell count, which always equals the changed-cell set's size, exceeds
`force_scratch_limit_`. -/
theorem C4_scratch_limit_amended (force_scratch_limit_ : Int)
    (w h lethal_obstacle_ : Nat) (live mirror : Nat × Nat → Nat) :
    (EngineCall.costsChanged (syncResult lethal_obstacle_ live mirror w h).2.1 ∈
        syncEngineCalls force_scratch_limit_ (syncResult lethal_obstacle_ live mirror w h) ↔
      (syncResult lethal_obstacle_ live mirror w h).2.1 ≠ []) ∧
    (EngineCall.forceScratch ∈
        syncEngineCalls force_scratch_limit_ (syncResult lethal_obstacle_ live mirror w h) ↔
      ((syncResult lethal_obstacle_ live mirror w h).2.2 : Int) > force_scratch_limit_) ∧
    (syncResult lethal_obstacle_ live mirror w h).2.2 =
      (syncResult lethal_obstacle_ live mirror w h).2.1.length ∧
    syncEngineCalls force_scratch_limit_ (syncResult lethal_obstacle_ live mirror w h) =
      (if (syncResult lethal_obstacle_ live mirror w h).2.1 = [] then []
        else [EngineCall.costsChanged (syncResult lethal_obstacle_ live mirror w h).2.1]) ++
      (if ((syncResult lethal_obstacle_ live mirror w h).2.2 : Int) > force_scratch_limit_
        then [EngineCall.forceScratch] else []) := by
  refine ⟨?_, ?_, ?_, rfl⟩
  · unfold syncEngineCalls
    split_ifs with h1 h2 <;> simp [h1]
  · unfold syncEngineCalls
    split_ifs with h1 h2 <;> simp_all
  · exact syncCells_count_eq_length lethal_obstacle_ live (gridCells w h)
      (mirror, [], 0) rfl

/-- C4 amended witness: the 1×1 changed grid with limit 0 exercises both
membership directions. -/
theorem C4_scratch_limit_amended_witness :
    EngineCall.costsChanged (syncResult 20 liveLethal mirrorZero 1 1).2.1 ∈
      syncEngineCalls 0 (syncResult 20 liveLethal mirrorZero 1 1) ∧
    EngineCall.forceScratch ∈ syncEngineCalls 0 (syncResult 20 liveLethal mirrorZero 1 1) :=
  ⟨(C4_scratch_limit_amended 0 1 1 20 liveLethal mirrorZero).1.mpr (by decide),
    (C4_scratch_limit_amended 0 1 1 20 liveLethal mirrorZero).2.1.mpr (by decide)⟩

/-- C10: when `getRobotPose` fails, `makePlan` returns `false`, the caller's
plan vector is returned unmodified (the source calls the non-mutating
`plan.empty()` query, not `clear()`), the plan cache is unchanged, and
`makePlanInternal` is never invoked. -/
theorem C10_pose_failure_frame
    (internal : PoseStamped → PoseStamped → Bool × List PoseStamped)
    (cache : PlanCache) (start goal : PoseStamped) (plan : List PoseStamped) :
    makePlan internal cache none start goal plan = ⟨false, plan, cache, []⟩ :=
  rfl

/-- C3: with a nonempty cached plan, an unchanged goal, at most 10 units of
travel and at most 10 seconds elapsed since the cached plan's creation,
`makePlan` returns `true` with the cached plan verbatim, leaves the cache
unchanged, and performs no `makePlanInternal` call — hence no search-engine
call, no grid diff and no mirror update, all of which live inside
`makePlanInternal`.  The result is independent of `internal`. -/
theorem C3_cache_reuse
    (internal : PoseStamped → PoseStamped → Bool × List PoseStamped)
    (cache : PlanCache) (robot_pose start goal : PoseStamped)
    (plan : List PoseStamped)
    (h1 : cache.previous_plan_ ≠ [])
    (h2 : goal = cache.previous_goal_)
    (h3 : distanceBetweenPoses robot_pose cache.robot_pose_when_plan_was_created_ ≤ 10)
    (h4 : robot_pose.stamp - cache.robot_pose_when_plan_was_created_.stamp ≤ 10) :
    makePlan internal cache (some robot_pose) start goal plan =
      ⟨true, cache.previous_plan_, cache, []⟩ := by
  have hnot : ¬ mustMakePlan cache robot_pose goal := by
    unfold mustMakePlan
    push_neg
    exact ⟨h1, h2, h3, h4⟩
  simp only [makePlan]
  rw [if_neg hnot]

/-- C3 witness: a robot sitting exactly at the recorded pose, at the recorded
time, re-requesting the cached goal, against a failing search oracle. -/
theorem C3_cache_reuse_witness :
    makePlan failInternal cacheA (some psA) psA psA [] = ⟨true, [psA], cacheA, []⟩ := by
  have hdist : distanceBetweenPoses psA cacheA.robot_pose_when_plan_was_created_ = 0 := by
    simp [distanceBetweenPoses, cacheA, psA, poseA]
  have h := C3_cache_reuse failInternal cacheA psA psA psA []
    (by simp [cacheA]) rfl (by rw [hdist]; norm_num)
    (by simp [cacheA, psA])
  simpa [cacheA] using h

/-- C1 counterexample to the claim as stated: a planning request with a new
goal whose search fails (the no-solution branch of `makePlanInternal`)
still mutates the cache: the cached plan is overwritten with the empty
plan and the cached goal with the new goal. -/
theorem C1_cache_mutated_by_failed_search :
    (makePlan failInternal cacheA (some psA) psA psB []).success = false ∧
    (makePlan failInternal cacheA (some psA) psA psB []).internalCalls ≠ [] ∧
    (makePlan failInternal cacheA (some psA) psA psB []).cache.previous_plan_ ≠
      cacheA.previous_plan_ ∧
    (makePlan failInternal cacheA (some psA) psA psB []).cache.previous_goal_ = psB := by
  have hne : psB ≠ cacheA.previous_goal_ := by
    simp [psB, psA, cacheA, poseA, poseB]
  have hm : mustMakePlan cacheA psA psB := Or.inr (Or.inl hne)
  simp only [makePlan]
  rw [if_pos hm]
  simp [failInternal, cacheA]

/-- C1 amended: the cache is overwritten by every planning request on which
the replan gate fires, regardless of success: the cached plan becomes the
plan `makePlanInternal` produced (empty on failure), the cached goal the
*true* requested goal, and the recorded pose the current robot pose; one
`makePlanInternal` call runs, on the clamped goal. -/
theorem C1_cache_overwrite_amended
    (internal : PoseStamped → PoseStamped → Bool × List PoseStamped)
    (cache : PlanCache) (robot_pose start goal : PoseStamped)
    (plan : List PoseStamped) (h : mustMakePlan cache robot_pose goal) :
    (makePlan internal cache (some robot_pose) start goal plan).cache =
      ⟨(internal start (clampedGoal robot_pose goal)).2, goal, robot_pose⟩ ∧
    (makePlan internal cache (some robot_pose) start goal plan).internalCalls =
      [(start, clampedGoal robot_pose goal)] := by
  simp only [makePlan]
  rw [if_pos h]
  exact ⟨rfl, rfl⟩

/-- C1 amended witness: an empty cache forces the gate; the failed search's
empty plan, the requested goal and the robot pose land in the cache. -/
theorem C1_cache_overwrite_amended_witness :
    (makePlan failInternal ⟨[], psA, psA⟩ (some psA) psA psA []).cache =
      ⟨(failInternal psA (clampedGoal psA psA)).2, psA, psA⟩ :=
  (C1_cache_overwrite_amended failInternal ⟨[], psA, psA⟩ psA psA psA []
    (Or.inl rfl)).1

/-- Fact that `atan2(0, x) = 0` for positive `x`. -/
lemma atan2_zero_pos (x : ℝ) (hx : 0 < x) : atan2 0 x = 0 := by
  unfold atan2
  rw [if_pos hx, zero_div, Real.arctan_zero]

/-- C7: when the euclidean distance from robot to goal is at most 20 the
goal is posed unmodified; beyond 20 the posed goal is
`R + 20 · normalize(G − R)` with orientation built from `atan2(dy, dx)`;
and for the robot at the origin with goal `(100, 0)` the posed goal is
exactly `(20, 0)` with heading 0. -/
theorem C7_goal_clamping (robot_pose goal : PoseStamped) :
    (Real.sqrt ((goal.pose.px - robot_pose.pose.px) * (goal.pose.px - robot_pose.pose.px) +
        (goal.pose.py - robot_pose.pose.py) * (goal.pose.py - robot_pose.pose.py)) ≤ 20 →
      clampedGoal robot_pose goal = goal) ∧
    (Real.sqrt ((goal.pose.px - robot_pose.pose.px) * (goal.pose.px - robot_pose.pose.px) +
        (goal.pose.py - robot_pose.pose.py) * (goal.pose.py - robot_pose.pose.py)) > 20 →
      clampedGoal robot_pose goal = { goal with
        pose := { goal.pose with
          px := robot_pose.pose.px + 20 * (goal.pose.px - robot_pose.pose.px) /
            Real.sqrt ((goal.pose.px - robot_pose.pose.px) * (goal.pose.px - robot_pose.pose.px) +
              (goal.pose.py - robot_pose.pose.py) * (goal.pose.py - robot_pose.pose.py))
          py := robot_pose.pose.py + 20 * (goal.pose.py - robot_pose.pose.py) /
            Real.sqrt ((goal.pose.px - robot_pose.pose.px) * (goal.pose.px - robot_pose.pose.px) +
              (goal.pose.py - robot_pose.pose.py) * (goal.pose.py - robot_pose.pose.py))
          q := quatFromYaw (atan2 (goal.pose.py - robot_pose.pose.py)
            (goal.pose.px - robot_pose.pose.px)) } }) ∧
    clampedGoal robot0 goal100 = ⟨goal100.stamp, ⟨20, 0, goal100.pose.pz, quatFromYaw 0⟩⟩ := by
  refine ⟨?_, ?_, ?_⟩
  · intro h
    simp only [clampedGoal]
    rw [if_neg (not_lt.mpr h)]
  · intro h
    simp only [clampedGoal]
    rw [if_pos h]
  · have h1 : (goal100.pose.px - robot0.pose.px) * (goal100.pose.px - robot0.pose.px) +
        (goal100.pose.py - robot0.pose.py) * (goal100.pose.py - robot0.pose.py) = (100 : ℝ) ^ 2 := by
      simp [goal100, robot0]
      norm_num
    have hsq : Real.sqrt ((goal100.pose.px - robot0.pose.px) * (goal100.pose.px - robot0.pose.px) +
        (goal100.pose.py - robot0.pose.py) * (goal100.pose.py - robot0.pose.py)) = 100 := by
      rw [h1]
      exact Real.sqrt_sq (by norm_num)
    have hat : atan2 (goal100.pose.py - robot0.pose.py) (goal100.pose.px - robot0.pose.px) = 0 := by
      have : goal100.pose.py - robot0.pose.py = 0 := by simp [goal100, robot0]
      rw [this]
      apply atan2_zero_pos
      simp [goal100, robot0]
    simp only [clampedGoal, hsq]
    rw [if_pos (by norm_num), hat]
    simp [goal100, robot0]

/-- C7 witness: a goal within the 20-unit horizon (distance 1) is posed
unmodified. -/
theorem C7_goal_clamping_witness : clampedGoal robot0 psB = psB := by
  have hd : Real.sqrt ((psB.pose.px - robot0.pose.px) * (psB.pose.px - robot0.pose.px) +
      (psB.pose.py - robot0.pose.py) * (psB.pose.py - robot0.pose.py)) ≤ 20 := by
    have : (psB.pose.px - robot0.pose.px) * (psB.pose.px - robot0.pose.px) +
        (psB.pose.py - robot0.pose.py) * (psB.pose.py - robot0.pose.py) = (1 : ℝ) := by
      simp [psB, poseB, robot0]
    rw [this, Real.sqrt_one]
    norm_num
  exact (C7_goal_clamping robot0 psB).1 hd

/-- The main smoothing pass produces one pose per raw pose. -/
lemma mainPass_length (rough : List Pose) (W : Nat) :
    (mainPass rough W).length = rough.length := by
  simp [mainPass]

/-- C2 counterexample to the claim as stated: for the raw sequence of
length 2 and window 1, the post-processor's smoothed output has 3 poses,
not 2 — the tail pass appends instead of overwriting. -/
theorem C2_tail_pass_counterexample :
    (smoothedPlan [poseZero, poseZero] 1).length = 3 ∧
    (overwriteOrientations (smoothedPlan [poseZero, poseZero] 1)).length = 3 ∧
    ([poseZero, poseZero] : List Pose).length = 2 := by
  refine ⟨?_, ?_, rfl⟩ <;>
    simp [smoothedPlan, mainPass, tailPass, overwriteOrientations]

/-- C2 amended: the tail pass *appends* rather than overwrites.  When
`W ≤ N` it appends, after the `N` main-pass poses (which stay in place),
one forward-shrinking-window pose for each index in `[N−W, N−1]`, so the
smoothed output has `N + W` poses; when `W > N` the tail-pass loop start
underflows in unsigned arithmetic, its guard fails immediately, nothing is
appended and the output has exactly `N` poses.  The orientation-overwrite
pass preserves the length. -/
theorem C2_tail_pass_amended (rough : List Pose) (W : Nat) :
    (smoothedPlan rough W).length =
      rough.length + (if W ≤ rough.length then W else 0) ∧
    (∀ i, i < rough.length →
      (smoothedPlan rough W)[i]? = some (smoothAt rough W i)) ∧
    (∀ k, W ≤ rough.length → k < W →
      (smoothedPlan rough W)[rough.length + k]? =
        some (smoothTailAt rough (rough.length - W + k))) ∧
    (overwriteOrientations (smoothedPlan rough W)).length =
      (smoothedPlan rough W).length := by
  have htail : (tailPass rough W).length = if W ≤ rough.length then W else 0 := by
    by_cases h : W ≤ rough.length <;> simp [tailPass, h]
  refine ⟨?_, ?_, ?_, ?_⟩
  · rw [smoothedPlan, List.length_append, mainPass_length, htail]
  · intro i hi
    rw [smoothedPlan, List.getElem?_append_left (by rw [mainPass_length]; exact hi)]
    unfold mainPass
    rw [List.getElem?_map, List.getElem?_range hi, Option.map_some']
  · intro k hW hk
    rw [smoothedPlan, List.getElem?_append_right (by rw [mainPass_length]; omega)]
    have hidx : rough.length + k - (mainPass rough W).length = k := by
      rw [mainPass_length]
      omega
    rw [hidx]
    unfold tailPass
    rw [if_pos hW, List.getElem?_map, List.getElem?_range' _ 1 hk, Option.map_some']
    simp
  · simp [overwriteOrientations]

/-- C2 amended witness: a one-pose raw path with window 1 — a main-pass pose
at index 0 and one appended tail-pass pose at index 1. -/
theorem C2_tail_pass_amended_witness :
    (smoothedPlan [poseZero] 1).length =
      ([poseZero] : List Pose).length + (if 1 ≤ ([poseZero] : List Pose).length then 1 else 0) ∧
    (smoothedPlan [poseZero] 1)[0]? = some (smoothAt [poseZero] 1 0) ∧
    (smoothedPlan [poseZero] 1)[([poseZero] : List Pose).length + 0]? =
      some (smoothTailAt [poseZero] (([poseZero] : List Pose).length - 1 + 0)) :=
  ⟨(C2_tail_pass_amended [poseZero] 1).1,
    (C2_tail_pass_amended [poseZero] 1).2.1 0 (by simp),
    (C2_tail_pass_amended [poseZero] 1).2.2.1 0 (by simp) (by simp)⟩

/-- C9: on an empty converted lattice path the rough plan is the single
synthetic pose at the start location with the start heading
`theta_start = 2 * atan2(qz, qw)` (the origin offset cancels); the rough
plan is never empty, and neither is the smoothed plan delivered downstream,
for any smoothing window. -/
theorem C9_degenerate_solution (ox oy : ℝ) (start : Pose)
    (sbpl_path : List LatticePt) (W : Nat) :
    makeRoughPlan ox oy start [] =
      [{ px := start.px, py := start.py, pz := start.pz,
          q := quatFromYaw (2 * atan2 start.q.qz start.q.qw) }] ∧
    makeRoughPlan ox oy start sbpl_path ≠ [] ∧
    overwriteOrientations (smoothedPlan (makeRoughPlan ox oy start sbpl_path) W) ≠ [] := by
  refine ⟨?_, ?_, ?_⟩
  · simp [makeRoughPlan, sub_add_cancel]
  · rcases sbpl_path with _ | ⟨p, ps⟩ <;> simp [makeRoughPlan]
  · have h2 : makeRoughPlan ox oy start sbpl_path ≠ [] := by
      rcases sbpl_path with _ | ⟨p, ps⟩ <;> simp [makeRoughPlan]
    have hN : 0 < (makeRoughPlan ox oy start sbpl_path).length :=
      List.length_pos.mpr h2
    rw [← List.length_pos]
    have hov : (overwriteOrientations (smoothedPlan (makeRoughPlan ox oy start sbpl_path) W)).length =
        (smoothedPlan (makeRoughPlan ox oy start sbpl_path) W).length := by
      simp [overwriteOrientations]
    rw [hov, smoothedPlan, List.length_append, mainPass_length]
    omega

end SbplLattice
